/-
Verification of the MultimarksActives Data Reconciliation & Metrics Engine.

Shallow embedding of the core subsystems:
  * the delimited-text repair parser (`src/csv_fix.py`, `fix_broken_csv_bytes`,
    and its twin `corrigir_csv` in `src/io.py`),
  * product-code normalization and the SKU match index
    (`src/io.py`: `normalizar_sku`, `criar_indice_sku`, `buscar_sku`),
  * the aggregation pipeline (`src/transform.py`: `filtrar_vendas`,
    `calcular_metricas_cliente`, `calcular_metricas_setor_ciclo`,
    `calcular_metricas_gerais`).

Modelling conventions:
  * The byte-decoding front end (codec tables of utf-8/latin-1/...) is elided:
    the parser is embedded from the point where the decoded text has been split
    into lines (`lines = text.splitlines()`), so an input is a `List String`.
    A non-empty byte input always yields a non-empty line list.
  * Python strings are `String`; slicing/`startswith`/`strip` are translated
    through `String.toList` to keep reasoning in `List Char`.
  * Python dicts (insertion-ordered, assignment overwrites, `in` tests keys)
    are association lists with first-occurrence replacement.
  * Pandas numeric columns are `Int` (item counts) and `Rat` (money); the
    float-based 1-decimal display rounding of `%Multimarcas` is elided since no
    verified property depends on it.
  * `pd.isna` input is modelled as `Option String` (`none` = null/NaN).
-/
import Mathlib

set_option autoImplicit false

namespace Multimarks

/-! ### String helpers (faithful translations of the Python primitives used) -/

/-- Python `str.strip()` (restricted to ASCII whitespace): drop leading and
trailing whitespace characters. -/
def pyStrip (s : String) : String :=
  let ws : Char → Bool := fun c =>
    c == ' ' || c == '\t' || c == '\n' || c == '\r' || c == '\x0b' || c == '\x0c'
  String.mk ((((s.toList.dropWhile ws).reverse).dropWhile ws).reverse)

/-- Python `s[1:]` on a string. -/
def strTail (s : String) : String :=
  String.mk (s.toList.drop 1)

/-- Python `s.startswith('0')`. -/
def strStartsWith0 (s : String) : Bool :=
  match s.toList with
  | [] => false
  | c :: _ => c == '0'

/-- Python `s.startswith(sep)` for a one-character separator. -/
def strStartsWithChar (sep : Char) (s : String) : Bool :=
  match s.toList with
  | [] => false
  | c :: _ => c == sep

/-- Python `line.rstrip("\n").rstrip("\r")`: drop all trailing `'\n'`, then all
trailing `'\r'`. -/
def rstripNewlines (s : String) : List Char :=
  (((s.toList.reverse).dropWhile (fun c => c == '\n')).dropWhile (fun c => c == '\r')).reverse

/-- Python single-character `str.split(sep)`: `"" ↦ [""]`, `"a|b" ↦ ["a","b"]`,
`"|" ↦ ["",""]`.  Never returns the empty list. -/
def splitChars (sep : Char) : List Char → List (List Char)
  | [] => [[]]
  | c :: cs =>
    if c == sep then [] :: splitChars sep cs
    else
      match splitChars sep cs with
      | [] => [[c]]
      | f :: r => (c :: f) :: r

/-- `split_naive(line, sep)` from `csv_fix.py`: strip trailing newline chars,
then split by the separator. -/
def splitNaive (sep : Char) (line : String) : List String :=
  (splitChars sep (rstripNewlines line)).map (fun cs => String.mk cs)

/-- Python `first_line.count(c)` for a single character. -/
def countChar (line : String) (c : Char) : Nat :=
  line.toList.count c

/-- Python `list.index` returning an optional first index of a match. -/
def firstIdx (p : String → Bool) : List String → Option Nat
  | [] => none
  | h :: t => if p h then some 0 else (firstIdx p t).map (fun n => n + 1)

/-- Python `sep.join(fields)` for a one-character separator. -/
def sepJoinStr (sep : Char) (fields : List String) : String :=
  String.intercalate (String.singleton sep) fields

/-! ### `csv_fix.py`: the repair parser -/

/-- `detect_sep` from `csv_fix.py`: count `|`, `;`, `,`, tab in the header line,
pick the first candidate with the highest count (Python `max` over an
insertion-ordered dict), defaulting to `,` when all counts are zero. -/
def detect_sep (line : String) : Char :=
  let cands : List Char := ['|', ';', ',', '\t']
  let best := cands.foldl
    (fun b c => if countChar line c > countChar line b then c else b) '|'
  if countChar line best > 0 then best else ','

/-- `find_text_column` from `csv_fix.py`: first candidate header name found in
the lowercased, stripped header, else column 0. -/
def find_text_column (header : List String) : Nat :=
  let headerLower := header.map (fun h => pyStrip h.toLower)
  let candidates : List String :=
    ["nomeproduto", "nome material", "nomerevendedora", "nome", "descricao", "descrição"]
  match candidates.findSome? (fun c => firstIdx (fun h => h == c) headerLower) with
  | some idx => idx
  | none => 0

/-- The target-column lookup of `corrigir_csv` in `io.py`:
`header.index(target_col)` with fallback `0` on `ValueError`. -/
def targetIdx (targetCol : String) (header : List String) : Nat :=
  match firstIdx (fun h => h == targetCol) header with
  | some idx => idx
  | none => 0

/-- The excess-column reconstruction of `fix_broken_csv_bytes` before its
defensive guard: `left + [merged] + right`. -/
def mergeExtraCore (sep : Char) (expected tidx : Nat) (parts : List String) : List String :=
  let extra := parts.length - expected
  parts.take tidx
    ++ [sepJoinStr sep ((parts.drop tidx).take (1 + extra))]
    ++ parts.drop (tidx + 1 + extra)

/-- The excess-column branch of `fix_broken_csv_bytes` including the defensive
truncate/pad guard (`if len(new_parts) > expected ... elif ... < expected`). -/
def mergeExtra (sep : Char) (expected tidx : Nat) (parts : List String) : List String :=
  let np0 := mergeExtraCore sep expected tidx parts
  if expected < np0.length then np0.take expected
  else if np0.length < expected then np0 ++ List.replicate (expected - np0.length) ""
  else np0

/-- The continuation-join loop (step 7a of `fix_broken_csv_bytes`): while the
buffer splits into fewer fields than expected and the next raw line starts
with the separator, concatenate it.  Returns the joined buffer, the remaining
unconsumed lines, and how many lines were joined. -/
def joinCont (sep : Char) (expected : Nat) (buf : String) :
    List String → String × List String × Nat
  | [] => (buf, [], 0)
  | next :: rest =>
    if (splitNaive sep buf).length < expected && strStartsWithChar sep next then
      let r := joinCont sep expected (buf ++ next) rest
      (r.1, r.2.1, r.2.2 + 1)
    else
      (buf, next :: rest, 0)

/-- One entry of the repair report's `fixes` list. -/
inductive FixAction where
  | joinedContinuationLines (count : Nat)
  | mergedExtraColumnsInto (col : String) (originalCols finalCols : Nat)
  | paddedMissingColumns (originalCols finalCols : Nat)
  deriving DecidableEq

/-- A recorded fix with its 1-based source line span. -/
structure Fix where
  lineStart : Nat
  lineEnd : Nat
  action : FixAction
  deriving DecidableEq

/-- Accumulated output of the data-line loop: emitted rows, fixes, and the
per-branch counters of `report["stats"]`. -/
structure RunOut where
  rows : List (List String)
  fixes : List Fix
  emitted : Nat
  joinedRecs : Nat
  extraFixed : Nat
  missingFixed : Nat
  unchanged : Nat
  deriving DecidableEq

/-- The data-line loop (step 7 of `fix_broken_csv_bytes`), structured with
explicit fuel; `fuel = ls.length` always suffices because every iteration
consumes at least one line.  `i` is the 0-based index of the current line in
the original `lines` list (so the 1-based report number is `i + 1`). -/
def processF (sep : Char) (expected tidx : Nat) (colName : String) :
    Nat → Nat → List String → RunOut
  | _, _, [] => ⟨[], [], 0, 0, 0, 0, 0⟩
  | 0, _, _ :: _ => ⟨[], [], 0, 0, 0, 0, 0⟩
  | fuel + 1, i, l :: rest =>
    let jc := joinCont sep expected l rest
    let endIdx := i + jc.2.2
    let parts := splitNaive sep jc.1
    let jfix : List Fix :=
      if jc.2.2 > 0 then [⟨i + 1, endIdx + 1, FixAction.joinedContinuationLines jc.2.2⟩] else []
    let jcount : Nat := if jc.2.2 > 0 then 1 else 0
    let t := processF sep expected tidx colName fuel (endIdx + 1) jc.2.1
    if parts.length = expected then
      ⟨parts :: t.rows, jfix ++ t.fixes, t.emitted + 1, jcount + t.joinedRecs,
        t.extraFixed, t.missingFixed, t.unchanged + 1⟩
    else if expected < parts.length then
      let np := mergeExtra sep expected tidx parts
      ⟨np :: t.rows,
        jfix ++ [⟨i + 1, endIdx + 1,
          FixAction.mergedExtraColumnsInto colName parts.length np.length⟩] ++ t.fixes,
        t.emitted + 1, jcount + t.joinedRecs, t.extraFixed + 1, t.missingFixed, t.unchanged⟩
    else
      let np := parts ++ List.replicate (expected - parts.length) ""
      ⟨np :: t.rows,
        jfix ++ [⟨i + 1, endIdx + 1,
          FixAction.paddedMissingColumns parts.length np.length⟩] ++ t.fixes,
        t.emitted + 1, jcount + t.joinedRecs, t.extraFixed, t.missingFixed + 1, t.unchanged⟩

/-- The data-line loop at its intended fuel. -/
def processLines (sep : Char) (expected tidx : Nat) (colName : String)
    (i : Nat) (ls : List String) : RunOut :=
  processF sep expected tidx colName ls.length i ls

/-- The logical records of a line sequence after continuation-joining only:
the sequence of joined buffers, one per loop iteration. -/
def logicalF (sep : Char) (expected : Nat) : Nat → List String → List String
  | _, [] => []
  | 0, _ :: _ => []
  | fuel + 1, l :: rest =>
    let jc := joinCont sep expected l rest
    jc.1 :: logicalF sep expected fuel jc.2.1

/-- `logicalF` at its intended fuel. -/
def logicalRecords (sep : Char) (expected : Nat) (ls : List String) : List String :=
  logicalF sep expected ls.length ls

/-- The `stats` object of the repair report. -/
structure Stats where
  total_original_lines : Nat
  data_records_emitted : Nat
  joined_broken_records : Nat
  fixed_extra_cols : Nat
  fixed_missing_cols : Nat
  unchanged : Nat
  deriving DecidableEq

/-- The result of `fix_broken_csv_bytes`: the repaired table (header plus data
rows handed to the csv writer) and the report. -/
structure FixResult where
  separator : Char
  header : List String
  expectedCols : Nat
  textColIdx : Nat
  rows : List (List String)
  fixes : List Fix
  stats : Stats
  deriving DecidableEq

/-- `fix_broken_csv_bytes` from `csv_fix.py`, embedded from the decoded line
list onward.  `none` is the `ValueError` on empty input / empty header. -/
def fix_broken_csv_bytes (lines : List String) (forced : Option Char) : Option FixResult :=
  match lines with
  | [] => none
  | headerLine :: dataLines =>
    let sep := match forced with
      | some c => c
      | none => detect_sep headerLine
    let header := (splitNaive sep headerLine).map (fun h => pyStrip h)
    let expected := header.length
    if expected = 0 then none
    else
      let tidx := find_text_column header
      let colName := header.getD tidx ""
      let run := processLines sep expected tidx colName 1 dataLines
      some ⟨sep, header, expected, tidx, run.rows, run.fixes,
        ⟨lines.length, run.emitted, run.joinedRecs,
          run.extraFixed, run.missingFixed, run.unchanged⟩⟩

/-! ### `io.py`: code normalization, SKU index, SKU resolution -/

/-- `TIPO_VENDA` from `constants.py`. -/
def TIPO_VENDA : String := "Venda"

/-- `MARCA_DESCONHECIDA` from `constants.py`: the UNKNOWN-brand sentinel. -/
def MARCA_DESCONHECIDA : String := "DESCONHECIDA"

/-- `MOTIVO_MATCH_EXATO` from `constants.py`. -/
def MOTIVO_MATCH_EXATO : String := "MATCH_EXATO"

/-- `MOTIVO_MATCH_COM_ZERO` from `constants.py`. -/
def MOTIVO_MATCH_COM_ZERO : String := "MATCH_COM_ZERO"

/-- `MOTIVO_NAO_ENCONTRADO` from `constants.py`. -/
def MOTIVO_NAO_ENCONTRADO : String := "NAO_ENCONTRADO"

/-- `normalizar_sku` from `io.py`: null maps to `""`; otherwise strip
surrounding whitespace from the string form and remove every non-digit
character (`re.sub(r'[^\d]', '', ...)`, modelled on ASCII digits).  The input
is the string form `str(valor)` of the scalar, or `none` for null/NaN. -/
def normalizar_sku (valor : Option String) : String :=
  match valor with
  | none => ""
  | some s => String.mk ((pyStrip s).toList.filter (fun c => c.isDigit))

/-- One value of the SKU index dict: `{'marca': ..., 'nome': ...}`, with
`originalSku = some sku` exactly when the entry carries the `'_original_sku'`
marker of a synthetic 4-digit alias. -/
structure SkuInfo where
  marca : String
  nome : String
  originalSku : Option String
  deriving DecidableEq

/-- A Python dict keyed by strings: an insertion-ordered association list with
unique keys. -/
abbrev SkuDict := List (String × SkuInfo)

/-- Dict assignment `d[k] = v`: replace the binding in place if the key
exists, else append. -/
def dictInsert : SkuDict → String → SkuInfo → SkuDict
  | [], k, v => [(k, v)]
  | p :: rest, k, v => if p.1 == k then (k, v) :: rest else p :: dictInsert rest k v

/-- Dict lookup `d[k]` as an option. -/
def dictFind (d : SkuDict) (k : String) : Option SkuInfo :=
  (d.find? (fun p => p.1 == k)).map (fun p => p.2)

/-- Python `k in d`. -/
def dictMem (d : SkuDict) (k : String) : Bool :=
  (dictFind d k).isSome

/-- One catalog row as seen by `criar_indice_sku`: the pre-normalized SKU
column plus brand and product name. -/
structure CatalogRow where
  sku : String
  marca : String
  nome : String
  deriving DecidableEq

/-- The loop body of `criar_indice_sku`: skip empty SKUs; insert the real
entry; for a 5-digit SKU starting with `'0'`, additionally insert the
4-digit suffix as a synthetic alias only if that key is not already
present. -/
def indexStep (ind : SkuDict) (row : CatalogRow) : SkuDict :=
  if row.sku == "" then ind
  else
    let ind1 := dictInsert ind row.sku ⟨row.marca, row.nome, none⟩
    if row.sku.length == 5 && strStartsWith0 row.sku then
      let s4 := strTail row.sku
      if dictMem ind1 s4 then ind1
      else dictInsert ind1 s4 ⟨row.marca, row.nome, some row.sku⟩
    else ind1

/-- `criar_indice_sku` from `io.py`: fold the catalog rows into the index. -/
def criar_indice_sku (rows : List CatalogRow) : SkuDict :=
  rows.foldl indexStep []

/-- `buscar_sku` from `io.py`: empty code is NOT_FOUND; exact hit is
EXACT_MATCH; else a 4-character code retries with `'0'` prepended
(MATCHED_WITH_ZERO_PREFIX on success); anything else is NOT_FOUND. -/
def buscar_sku (codigo : String) (indice : SkuDict) :
    Option String × Option String × String :=
  if codigo = "" then (none, none, MOTIVO_NAO_ENCONTRADO)
  else
    match dictFind indice codigo with
    | some info => (some info.marca, some info.nome, MOTIVO_MATCH_EXATO)
    | none =>
      if codigo.length = 4 then
        match dictFind indice ("0" ++ codigo) with
        | some info => (some info.marca, some info.nome, MOTIVO_MATCH_COM_ZERO)
        | none => (none, none, MOTIVO_NAO_ENCONTRADO)
      else (none, none, MOTIVO_NAO_ENCONTRADO)

/-! ### `transform.py`: filtering and aggregation -/

/-- One enriched sales row as consumed by the aggregation stage: the raw sale
fields plus the enrichment columns (`Marca_BD`, `ClienteID`). -/
structure VendaRow where
  setor : String
  nomeRev : String
  codigoRev : String
  ciclo : String
  tipo : String
  marcaBD : String
  clienteId : String
  qtdItens : Int
  valor : Rat
  deriving DecidableEq

/-- `filtrar_vendas` from `transform.py`: keep only rows with
`Tipo == 'Venda'`. -/
def filtrar_vendas (rows : List VendaRow) : List VendaRow :=
  rows.filter (fun r => r.tipo == TIPO_VENDA)

/-- The 5-part groupby key of `calcular_metricas_cliente`:
`(CicloFaturamento, ClienteID, Setor, CodigoRevendedora, NomeRevendedora)`. -/
def clientKey (r : VendaRow) : String × String × String × String × String :=
  (r.ciclo, r.clienteId, r.setor, r.codigoRev, r.nomeRev)

/-- Python `sorted` on strings (insertion sort; only the sorted order is
observable downstream). -/
def insertSorted (s : String) : List String → List String
  | [] => [s]
  | x :: xs => if s ≤ x then s :: x :: xs else x :: insertSorted s xs

/-- Python `sorted(l)` for strings. -/
def sortStrings : List String → List String
  | [] => []
  | x :: xs => insertSorted x (sortStrings xs)

/-- One output row of `calcular_metricas_cliente` (a `ClientCycleMetric`). -/
structure ClientMetric where
  ciclo : String
  clienteId : String
  setor : String
  codigoRev : String
  nomeRev : String
  marcasCompradas : String
  itensTotal : Int
  valorTotal : Rat
  qtdeMarcasDistintas : Nat
  isMultimarcas : Bool
  deriving DecidableEq, Inhabited

/-- `calcular_metricas_cliente` from `transform.py`: group the sale rows by
the 5-part client key; per group collect the distinct brands, count the
distinct brands other than the UNKNOWN sentinel, set the multi-brand flag at
`count >= 2`, join the sorted known brands, and sum quantity and amount.
( pandas sorts group keys; key order is not observable by any verified
property, so first/last-occurrence dedup order is used. ) -/
def calcular_metricas_cliente (df : List VendaRow) : List ClientMetric :=
  ((df.map clientKey).dedup).map (fun k =>
    let members := df.filter (fun r => clientKey r == k)
    let marcasUnicas := (members.map (fun r => r.marcaBD)).dedup
    let conhecidas := marcasUnicas.filter (fun m => m != MARCA_DESCONHECIDA)
    ⟨k.1, k.2.1, k.2.2.1, k.2.2.2.1, k.2.2.2.2,
      String.intercalate ", " (sortStrings conhecidas),
      (members.map (fun r => r.qtdItens)).sum,
      (members.map (fun r => r.valor)).sum,
      conhecidas.length,
      decide (2 ≤ conhecidas.length)⟩)

/-- One output row of `calcular_metricas_setor_ciclo` (a `SectorCycleMetric`). -/
structure SetorMetric where
  ciclo : String
  setor : String
  clientesAtivos : Nat
  clientesMultimarcas : Nat
  itensTotal : Int
  valorTotal : Rat
  pctMultimarcas : Rat
  deriving DecidableEq, Inhabited

/-- `calcular_metricas_setor_ciclo` from `transform.py`: group the client
metrics by `(CicloFaturamento, Setor)`; count distinct clients (`nunique`),
count multi-brand rows (pandas `sum` over the boolean flag), sum totals, and
derive `%Multimarcas = ClientesMultimarcas / ClientesAtivos * 100` (the
float display rounding to 1 decimal is elided). -/
def calcular_metricas_setor_ciclo (clientes : List ClientMetric) : List SetorMetric :=
  ((clientes.map (fun c => (c.ciclo, c.setor))).dedup).map (fun k =>
    let members := clientes.filter (fun c => (c.ciclo, c.setor) == k)
    let ativos := ((members.map (fun c => c.clienteId)).dedup).length
    let multi := (members.filter (fun c => c.isMultimarcas)).length
    ⟨k.1, k.2, ativos, multi,
      (members.map (fun c => c.itensTotal)).sum,
      (members.map (fun c => c.valorTotal)).sum,
      (multi : Rat) / (ativos : Rat) * 100⟩)

/-- The dictionary returned by `calcular_metricas_gerais`. -/
structure GeraisMetric where
  total_ativos : Nat
  total_multimarcas : Nat
  percent_multimarcas : Rat
  total_itens : Int
  total_valor : Rat
  deriving DecidableEq

/-- `calcular_metricas_gerais` from `transform.py`: overall distinct active
clients, overall distinct multi-brand clients, their percentage guarded by
`if total_ativos > 0 else 0`, and grand totals over the filtered sales. -/
def calcular_metricas_gerais (clientes : List ClientMetric)
    (vendasFiltrado : List VendaRow) : GeraisMetric :=
  let totalAtivos := ((clientes.map (fun c => c.clienteId)).dedup).length
  let totalMulti :=
    (((clientes.filter (fun c => c.isMultimarcas)).map (fun c => c.clienteId)).dedup).length
  ⟨totalAtivos, totalMulti,
    if 0 < totalAtivos then (totalMulti : Rat) / (totalAtivos : Rat) * 100 else 0,
    (vendasFiltrado.map (fun r => r.qtdItens)).sum,
    (vendasFiltrado.map (fun r => r.valor)).sum⟩

/-! ### Lemmas about the repair parser -/

theorem splitChars_ne_nil (sep : Char) (l : List Char) : splitChars sep l ≠ [] := by
  induction l with
  | nil => simp [splitChars]
  | cons c cs ih =>
    simp only [splitChars]
    split
    · simp
    · cases h : splitChars sep cs with
      | nil => simp
      | cons f r => simp

theorem splitNaive_length_pos (sep : Char) (l : String) : 0 < (splitNaive sep l).length := by
  have h := splitChars_ne_nil sep (rstripNewlines l)
  simp only [splitNaive, List.length_map]
  exact List.length_pos.mpr h

theorem firstIdx_lt_length (p : String → Bool) (l : List String) (i : Nat)
    (h : firstIdx p l = some i) : i < l.length := by
  induction l generalizing i with
  | nil => simp [firstIdx] at h
  | cons x xs ih =>
    simp only [firstIdx] at h
    split at h
    · simp only [Option.some.injEq] at h
      simp only [List.length_cons]
      omega
    · cases hx : firstIdx p xs with
      | none => rw [hx] at h; simp at h
      | some j =>
        rw [hx] at h
        simp at h
        have := ih j hx
        simp only [List.length_cons]
        omega

theorem findSome?_mem {α β : Type} (f : α → Option β) (l : List α) (b : β)
    (h : l.findSome? f = some b) : ∃ a ∈ l, f a = some b := by
  induction l with
  | nil => simp [List.findSome?] at h
  | cons x xs ih =>
    cases hx : f x with
    | none =>
      simp only [List.findSome?_cons, hx] at h
      obtain ⟨a, ha, hfa⟩ := ih h
      exact ⟨a, List.mem_cons_of_mem _ ha, hfa⟩
    | some v =>
      simp only [List.findSome?_cons, hx] at h
      exact ⟨x, List.mem_cons_self _ _, by rw [hx, h]⟩

theorem find_text_column_lt (header : List String) (h : header ≠ []) :
    find_text_column header < header.length := by
  simp only [find_text_column]
  cases hf : List.findSome?
      (fun c => firstIdx (fun h => h == c) (header.map (fun h => pyStrip h.toLower)))
      ["nomeproduto", "nome material", "nomerevendedora", "nome", "descricao", "descrição"] with
  | none => simpa using List.length_pos.mpr h
  | some idx =>
    simp only
    obtain ⟨c, _, hc⟩ := findSome?_mem _ _ _ hf
    have := firstIdx_lt_length _ _ _ hc
    simpa using this

theorem targetIdx_lt (target : String) (header : List String) (h : header ≠ []) :
    targetIdx target header < header.length := by
  simp only [targetIdx]
  cases hf : firstIdx (fun h => h == target) header with
  | none => simpa using List.length_pos.mpr h
  | some idx => exact firstIdx_lt_length _ _ _ hf

theorem mergeExtraCore_length (sep : Char) (expected tidx : Nat) (parts : List String)
    (htidx : tidx < expected) (hlen : expected < parts.length) :
    (mergeExtraCore sep expected tidx parts).length = expected := by
  simp only [mergeExtraCore, List.length_append, List.length_take, List.length_drop,
    List.length_cons, List.length_nil]
  omega

theorem mergeExtra_eq_core (sep : Char) (expected tidx : Nat) (parts : List String)
    (htidx : tidx < expected) (hlen : expected < parts.length) :
    mergeExtra sep expected tidx parts = mergeExtraCore sep expected tidx parts := by
  have h := mergeExtraCore_length sep expected tidx parts htidx hlen
  simp [mergeExtra, h]

theorem mergeExtra_length (sep : Char) (expected tidx : Nat) (parts : List String) :
    (mergeExtra sep expected tidx parts).length = expected := by
  simp only [mergeExtra]
  split
  · rename_i h
    simp only [List.length_take]
    omega
  · split
    · rename_i h
      simp only [List.length_append, List.length_replicate]
      omega
    · omega

theorem processF_counts (sep : Char) (e tidx : Nat) (cn : String) :
    ∀ (fuel i : Nat) (ls : List String),
      ((processF sep e tidx cn fuel i ls).rows.length
          = (processF sep e tidx cn fuel i ls).emitted)
      ∧ ((processF sep e tidx cn fuel i ls).emitted
          = (processF sep e tidx cn fuel i ls).unchanged
            + (processF sep e tidx cn fuel i ls).extraFixed
            + (processF sep e tidx cn fuel i ls).missingFixed)
      ∧ ((processF sep e tidx cn fuel i ls).emitted = (logicalF sep e fuel ls).length) := by
  intro fuel
  induction fuel with
  | zero => intro i ls; cases ls <;> simp [processF, logicalF]
  | succ f ih =>
    intro i ls
    cases ls with
    | nil => simp [processF, logicalF]
    | cons l rest =>
      obtain ⟨ih1, ih2, ih3⟩ :=
        ih (i + (joinCont sep e l rest).2.2 + 1) (joinCont sep e l rest).2.1
      simp only [processF, logicalF]
      split
      · refine ⟨?_, ?_, ?_⟩ <;> simp only [List.length_cons, ih1, ih2, ih3] <;> omega
      · split
        · refine ⟨?_, ?_, ?_⟩ <;> simp only [List.length_cons, ih1, ih2, ih3] <;> omega
        · refine ⟨?_, ?_, ?_⟩ <;> simp only [List.length_cons, ih1, ih2, ih3] <;> omega

theorem processF_row_length (sep : Char) (e tidx : Nat) (cn : String) :
    ∀ (fuel i : Nat) (ls : List String) (row : List String),
      row ∈ (processF sep e tidx cn fuel i ls).rows → row.length = e := by
  intro fuel
  induction fuel with
  | zero => intro i ls row h; cases ls <;> simp [processF] at h
  | succ f ih =>
    intro i ls row h
    cases ls with
    | nil => simp [processF] at h
    | cons l rest =>
      simp only [processF] at h
      split at h
      · rename_i hlen
        simp only [List.mem_cons] at h
        cases h with
        | inl h => rw [h]; exact hlen
        | inr h => exact ih _ _ _ h
      · split at h
        · simp only [List.mem_cons] at h
          cases h with
          | inl h => rw [h]; exact mergeExtra_length sep e tidx _
          | inr h => exact ih _ _ _ h
        · rename_i h1 h2
          simp only [List.mem_cons] at h
          cases h with
          | inl h =>
            rw [h]
            simp only [List.length_append, List.length_replicate]
            omega
          | inr h => exact ih _ _ _ h

theorem joinCont_of_ge (sep : Char) (e : Nat) (buf : String) (rest : List String)
    (h : ¬ (splitNaive sep buf).length < e) :
    joinCont sep e buf rest = (buf, rest, 0) := by
  cases rest with
  | nil => rfl
  | cons next r => simp [joinCont, h]

theorem processF_wellformed (sep : Char) (e tidx : Nat) (cn : String) :
    ∀ (fuel i : Nat) (ls : List String), ls.length ≤ fuel →
      (∀ l ∈ ls, (splitNaive sep l).length = e) →
      processF sep e tidx cn fuel i ls =
        ⟨ls.map (splitNaive sep), [], ls.length, 0, 0, 0, ls.length⟩ := by
  intro fuel
  induction fuel with
  | zero =>
    intro i ls hf _
    cases ls with
    | nil => simp [processF]
    | cons l rest => simp at hf
  | succ f ih =>
    intro i ls hf hwf
    cases ls with
    | nil => simp [processF]
    | cons l rest =>
      have hl : (splitNaive sep l).length = e := hwf l (List.mem_cons_self _ _)
      have hj : joinCont sep e l rest = (l, rest, 0) :=
        joinCont_of_ge sep e l rest (by omega)
      have hrest : rest.length ≤ f := by
        simp only [List.length_cons] at hf
        omega
      have ht := ih (i + 0 + 1) rest hrest (fun x hx => hwf x (List.mem_cons_of_mem _ hx))
      simp [processF, hj, hl, ht]

/-! ### Claim theorems: the repair parser -/

/-- C1: No-loss.  For every non-empty input, the repair parser reports
`data_records_emitted` equal to the number of data rows written to the output
table, equal to the number of logical records after continuation-joining, and
equal to `unchanged + fixed_extra_cols + fixed_missing_cols`: no logical
record is ever dropped. -/
theorem claim_C1_no_loss (lines : List String) (hne : lines ≠ []) :
    ∃ res : FixResult, fix_broken_csv_bytes lines none = some res
      ∧ res.stats.data_records_emitted = res.rows.length
      ∧ res.stats.data_records_emitted
          = (logicalRecords res.separator res.expectedCols lines.tail).length
      ∧ res.stats.data_records_emitted
          = res.stats.unchanged + res.stats.fixed_extra_cols + res.stats.fixed_missing_cols := by
  cases lines with
  | nil => exact absurd rfl hne
  | cons hl dl =>
    have hpos := splitNaive_length_pos (detect_sep hl) hl
    simp only [fix_broken_csv_bytes]
    rw [if_neg (by simp only [List.length_map]; omega)]
    refine ⟨_, rfl, ?_, ?_, ?_⟩
    · exact ((processF_counts _ _ _ _ _ _ _).1).symm
    · simpa only [logicalRecords, processLines, List.tail_cons]
        using (processF_counts _ _ _ _ dl.length 1 dl).2.2
    · exact (processF_counts _ _ _ _ _ _ _).2.1

/-- Witness for C1 at a concrete broken input (a short row, an overlong row,
and a wrapped record). -/
theorem claim_C1_no_loss_witness :
    (["A|B|C", "1|2", "1|2|3|4", "1|2", "|3"] : List String) ≠ []
    ∧ (∃ res : FixResult,
        fix_broken_csv_bytes ["A|B|C", "1|2", "1|2|3|4", "1|2", "|3"] none = some res
        ∧ res.stats.data_records_emitted = res.rows.length
        ∧ res.stats.data_records_emitted
            = (logicalRecords res.separator res.expectedCols
                ["1|2", "1|2|3|4", "1|2", "|3"]).length
        ∧ res.stats.data_records_emitted
            = res.stats.unchanged + res.stats.fixed_extra_cols + res.stats.fixed_missing_cols) :=
  ⟨by decide, claim_C1_no_loss ["A|B|C", "1|2", "1|2|3|4", "1|2", "|3"] (by decide)⟩

/-- C2: Field-count invariant.  For every non-empty input, every data row the
repair parser emits has exactly `len(header)` fields, in all three branches. -/
theorem claim_C2_field_count (lines : List String) (hne : lines ≠ []) :
    ∃ res : FixResult, fix_broken_csv_bytes lines none = some res
      ∧ ∀ row ∈ res.rows, row.length = res.expectedCols := by
  cases lines with
  | nil => exact absurd rfl hne
  | cons hl dl =>
    have hpos := splitNaive_length_pos (detect_sep hl) hl
    simp only [fix_broken_csv_bytes]
    rw [if_neg (by simp only [List.length_map]; omega)]
    refine ⟨_, rfl, ?_⟩
    intro row hrow
    exact processF_row_length _ _ _ _ _ _ _ row hrow

/-- Witness for C2 at a concrete input exercising the exact, excess and
missing branches. -/
theorem claim_C2_field_count_witness :
    (["A|B|C", "1|2|3", "1|2", "1|2|3|4|5"] : List String) ≠ []
    ∧ (∃ res : FixResult,
        fix_broken_csv_bytes ["A|B|C", "1|2|3", "1|2", "1|2|3|4|5"] none = some res
        ∧ ∀ row ∈ res.rows, row.length = res.expectedCols) :=
  ⟨by decide, claim_C2_field_count ["A|B|C", "1|2|3", "1|2", "1|2|3|4|5"] (by decide)⟩

/-- C6: Idempotence.  If every data line already splits into exactly
`len(header)` fields under the detected separator, the repair parser returns
the same table unchanged: the emitted rows are precisely the split data
lines, the fixes list is empty, every record is counted as `unchanged`, and
no join/merge/pad counter moves. -/
theorem claim_C6_idempotence (lines : List String) (hl : String) (dl : List String)
    (heq : lines = hl :: dl)
    (hwf : ∀ l ∈ dl, (splitNaive (detect_sep hl) l).length
        = (splitNaive (detect_sep hl) hl).length) :
    ∃ res : FixResult, fix_broken_csv_bytes lines none = some res
      ∧ res.rows = dl.map (splitNaive (detect_sep hl))
      ∧ res.fixes = []
      ∧ res.stats.unchanged = dl.length
      ∧ res.stats.data_records_emitted = dl.length
      ∧ res.stats.joined_broken_records = 0
      ∧ res.stats.fixed_extra_cols = 0
      ∧ res.stats.fixed_missing_cols = 0 := by
  subst heq
  have hpos := splitNaive_length_pos (detect_sep hl) hl
  have hwf2 : ∀ l ∈ dl, (splitNaive (detect_sep hl) l).length
      = ((splitNaive (detect_sep hl) hl).map (fun h => pyStrip h)).length := by
    intro l hx
    simp only [List.length_map]
    exact hwf l hx
  have hrun := processF_wellformed (detect_sep hl)
    ((splitNaive (detect_sep hl) hl).map (fun h => pyStrip h)).length
    (find_text_column ((splitNaive (detect_sep hl) hl).map (fun h => pyStrip h)))
    (((splitNaive (detect_sep hl) hl).map (fun h => pyStrip h)).getD
      (find_text_column ((splitNaive (detect_sep hl) hl).map (fun h => pyStrip h))) "")
    dl.length 1 dl le_rfl hwf2
  simp only [fix_broken_csv_bytes]
  rw [if_neg (by simp only [List.length_map]; omega)]
  refine ⟨_, rfl, ?_, ?_, ?_, ?_, ?_, ?_, ?_⟩ <;>
    (simp only [processLines]; rw [hrun])

/-- Witness for C6 at a concrete well-formed table. -/
theorem claim_C6_idempotence_witness :
    (∀ l ∈ (["1|2", "3|4"] : List String),
        (splitNaive (detect_sep "A|B") l).length = (splitNaive (detect_sep "A|B") "A|B").length)
    ∧ (∃ res : FixResult, fix_broken_csv_bytes ["A|B", "1|2", "3|4"] none = some res
        ∧ res.rows = (["1|2", "3|4"] : List String).map (splitNaive (detect_sep "A|B"))
        ∧ res.fixes = []
        ∧ res.stats.unchanged = (["1|2", "3|4"] : List String).length
        ∧ res.stats.data_records_emitted = (["1|2", "3|4"] : List String).length
        ∧ res.stats.joined_broken_records = 0
        ∧ res.stats.fixed_extra_cols = 0
        ∧ res.stats.fixed_missing_cols = 0) :=
  ⟨by decide,
   claim_C6_idempotence ["A|B", "1|2", "3|4"] "A|B" ["1|2", "3|4"] rfl (by decide)⟩

/-- C9: Dead defensive branch in the excess-column merge.  The absorbing text
column index (both `find_text_column` of `csv_fix.py` and the
`header.index`-with-fallback lookup of `corrigir_csv` in `io.py`) is always
strictly below the expected column count, and whenever the index is in range
and the field count exceeds the expected count, the reconstruction
`left + [merged] + right` already has exactly the expected number of fields,
so the defensive truncate/pad guard never fires. -/
theorem claim_C9_dead_guard :
    (∀ header : List String, header ≠ [] →
        find_text_column header < header.length
        ∧ targetIdx "NomeProduto" header < header.length)
    ∧ (∀ (sep : Char) (expected tidx : Nat) (parts : List String),
        tidx < expected → expected < parts.length →
          mergeExtra sep expected tidx parts = mergeExtraCore sep expected tidx parts
          ∧ (mergeExtraCore sep expected tidx parts).length = expected) :=
  ⟨fun header h => ⟨find_text_column_lt header h, targetIdx_lt _ header h⟩,
   fun sep e tidx parts h1 h2 =>
     ⟨mergeExtra_eq_core sep e tidx parts h1 h2, mergeExtraCore_length sep e tidx parts h1 h2⟩⟩

/-- Witness for C9 at a concrete header and overlong row. -/
theorem claim_C9_dead_guard_witness :
    (["Setor", "NomeProduto"] : List String) ≠ []
    ∧ (find_text_column ["Setor", "NomeProduto"] < (["Setor", "NomeProduto"] : List String).length
        ∧ targetIdx "NomeProduto" ["Setor", "NomeProduto"]
            < (["Setor", "NomeProduto"] : List String).length)
    ∧ (1 : Nat) < 2 ∧ (2 : Nat) < 4
    ∧ (mergeExtra '|' 2 1 ["a", "b", "c", "d"] = mergeExtraCore '|' 2 1 ["a", "b", "c", "d"]
        ∧ (mergeExtraCore '|' 2 1 ["a", "b", "c", "d"]).length = 2) :=
  ⟨by decide,
   claim_C9_dead_guard.1 ["Setor", "NomeProduto"] (by decide),
   by decide, by decide,
   claim_C9_dead_guard.2 '|' 2 1 ["a", "b", "c", "d"] (by decide) (by decide)⟩

/-! ### String lemmas -/

theorem toList_mk (l : List Char) : (String.mk l).toList = l := rfl

theorem toList_inj {s t : String} (h : s.toList = t.toList) : s = t := by
  cases s
  cases t
  exact congrArg String.mk h

theorem toList_zero_append (c : String) : ("0" ++ c).toList = '0' :: c.toList := by
  cases c
  rfl

theorem length_eq_toList_length (s : String) : s.length = s.toList.length := rfl

theorem ne_empty_of_length_pos {s : String} (h : 0 < s.length) : s ≠ "" := by
  intro he
  rw [he] at h
  simp at h

theorem zero_append_ne_empty (c : String) : "0" ++ c ≠ "" := by
  apply ne_empty_of_length_pos
  rw [length_eq_toList_length, toList_zero_append]
  simp

theorem zero_append_length (c : String) : ("0" ++ c).length = c.length + 1 := by
  rw [length_eq_toList_length, toList_zero_append, length_eq_toList_length]
  simp

theorem strTail_zero_append (c : String) : strTail ("0" ++ c) = c := by
  apply toList_inj
  rw [strTail, toList_mk, toList_zero_append]
  simp

theorem strStartsWith0_zero_append (c : String) : strStartsWith0 ("0" ++ c) = true := by
  rw [strStartsWith0, toList_zero_append]
  simp

theorem startsWith0_recon {s : String} (h : strStartsWith0 s = true) :
    s = "0" ++ strTail s := by
  cases s with
  | mk data =>
    cases data with
    | nil => simp [strStartsWith0] at h
    | cons c cs =>
      have hc : c = '0' := by simpa [strStartsWith0] using h
      apply toList_inj
      rw [toList_zero_append, strTail, toList_mk]
      show c :: cs = '0' :: List.drop 1 (c :: cs)
      rw [hc]
      rfl

theorem strTail_ne_self {c : String} (hc : c ≠ "") : strTail c ≠ c := by
  intro he
  have hlen : (strTail c).length = c.length - 1 := by
    rw [strTail, length_eq_toList_length, toList_mk, List.length_drop,
      length_eq_toList_length]
  have hpos : 0 < c.length := by
    rcases Nat.eq_zero_or_pos c.length with h0 | h0
    · exact absurd (toList_inj (by
        have := length_eq_toList_length c
        rw [h0] at this
        simpa using (List.length_eq_zero.mp this.symm))) hc
    · exact h0
  rw [he] at hlen
  omega

/-! ### Dict lemmas -/

theorem dictFind_insert_self (d : SkuDict) (k : String) (v : SkuInfo) :
    dictFind (dictInsert d k v) k = some v := by
  induction d with
  | nil => simp [dictInsert, dictFind, List.find?]
  | cons p rest ih =>
    cases hp : (p.1 == k) with
    | true => simp [dictInsert, hp, dictFind, List.find?]
    | false =>
      have h1 : dictInsert (p :: rest) k v = p :: dictInsert rest k v := by
        simp [dictInsert, hp]
      rw [h1]
      simp only [dictFind, List.find?] at ih ⊢
      simpa [hp] using ih

theorem dictFind_insert_ne (d : SkuDict) (k k' : String) (v : SkuInfo)
    (h : k' ≠ k) : dictFind (dictInsert d k v) k' = dictFind d k' := by
  have hkk : (k == k') = false := beq_eq_false_iff_ne.mpr (Ne.symm h)
  induction d with
  | nil => simp [dictInsert, dictFind, List.find?, hkk]
  | cons p rest ih =>
    cases hp : (p.1 == k) with
    | true =>
      have h1 : dictInsert (p :: rest) k v = (k, v) :: rest := by
        simp [dictInsert, hp]
      rw [h1]
      have hpk : p.1 = k := by simpa using hp
      simp [dictFind, List.find?, hkk, hpk]
    | false =>
      have h1 : dictInsert (p :: rest) k v = p :: dictInsert rest k v := by
        simp [dictInsert, hp]
      rw [h1]
      simp only [dictFind, List.find?] at ih ⊢
      cases hpk : (p.1 == k') with
      | true => simp [hpk]
      | false => simpa [hpk] using ih

/-! ### Fold lemmas for the SKU index -/

/-- The last catalog row whose SKU equals `c` (last-seen duplicate). -/
def lastWith (c : String) : List CatalogRow → Option CatalogRow
  | [] => none
  | x :: rest =>
    match lastWith c rest with
    | some r => some r
    | none => if x.sku == c then some x else none

/-- The first catalog row whose SKU equals `c` (first-seen duplicate). -/
def firstWith (c : String) : List CatalogRow → Option CatalogRow
  | [] => none
  | x :: rest => if x.sku == c then some x else firstWith c rest

theorem lastWith_none {c : String} {l : List CatalogRow}
    (h : lastWith c l = none) : ∀ y ∈ l, y.sku ≠ c := by
  induction l with
  | nil => intro y hy; simp at hy
  | cons x rest ih =>
    intro y hy
    simp only [lastWith] at h
    cases hr : lastWith c rest with
    | some r => rw [hr] at h; simp at h
    | none =>
      rw [hr] at h
      simp only [List.mem_cons] at hy
      cases hy with
      | inl hy =>
        intro he
        rw [hy] at he
        rw [if_pos (beq_iff_eq.mpr he)] at h
        simp at h
      | inr hy => exact ih hr y hy

theorem lastWith_mem {c : String} {l : List CatalogRow} {r : CatalogRow}
    (h : lastWith c l = some r) : r ∈ l ∧ r.sku = c := by
  induction l with
  | nil => simp [lastWith] at h
  | cons x rest ih =>
    simp only [lastWith] at h
    cases hr : lastWith c rest with
    | some r2 =>
      rw [hr] at h
      simp only [Option.some.injEq] at h
      obtain ⟨hm, hs⟩ := ih (by rw [hr, h])
      exact ⟨List.mem_cons_of_mem _ hm, hs⟩
    | none =>
      rw [hr] at h
      by_cases hx : x.sku == c
      · rw [if_pos hx] at h
        simp only [Option.some.injEq] at h
        subst h
        exact ⟨List.mem_cons_self _ _, beq_iff_eq.mp hx⟩
      · rw [if_neg hx] at h
        simp at h

theorem indexStep_preserve {ind : SkuDict} {x : CatalogRow} {c : String}
    (hx : x.sku ≠ c) (hsome : (dictFind ind c).isSome) :
    dictFind (indexStep ind x) c = dictFind ind c := by
  simp only [indexStep]
  split
  · rfl
  · have hne : c ≠ x.sku := Ne.symm hx
    split
    · split
      · exact dictFind_insert_ne ind x.sku c _ hne
      · rename_i hq hmem
        by_cases hs4 : strTail x.sku = c
        · exfalso
          apply hmem
          rw [dictMem, hs4, dictFind_insert_ne ind x.sku c _ hne]
          exact hsome
        · rw [dictFind_insert_ne _ _ _ _ (fun he => hs4 he.symm)]
          exact dictFind_insert_ne ind x.sku c _ hne
    · exact dictFind_insert_ne ind x.sku c _ hne

theorem foldl_preserve (rows : List CatalogRow) (c : String) :
    ∀ ind : SkuDict, (∀ r ∈ rows, r.sku ≠ c) → (dictFind ind c).isSome →
      dictFind (rows.foldl indexStep ind) c = dictFind ind c := by
  induction rows with
  | nil => intro ind _ _; rfl
  | cons x rest ih =>
    intro ind hno hsome
    have hstep : dictFind (indexStep ind x) c = dictFind ind c :=
      indexStep_preserve (hno x (List.mem_cons_self _ _)) hsome
    rw [List.foldl_cons,
      ih (indexStep ind x) (fun y hy => hno y (List.mem_cons_of_mem _ hy))
        (by rw [hstep]; exact hsome),
      hstep]

theorem foldl_last_real (c : String) (hc : c ≠ "") :
    ∀ (rows : List CatalogRow) (ind : SkuDict) (r : CatalogRow),
      lastWith c rows = some r →
      dictFind (rows.foldl indexStep ind) c = some ⟨r.marca, r.nome, none⟩ := by
  intro rows
  induction rows with
  | nil => intro ind r h; simp [lastWith] at h
  | cons x rest ih =>
    intro ind r h
    rw [List.foldl_cons]
    simp only [lastWith] at h
    cases hrest : lastWith c rest with
    | some r2 =>
      rw [hrest] at h
      simp only [Option.some.injEq] at h
      subst h
      exact ih (indexStep ind x) r2 hrest
    | none =>
      rw [hrest] at h
      by_cases hx : x.sku == c
      · rw [if_pos hx] at h
        simp only [Option.some.injEq] at h
        subst h
        have hxe : x.sku = c := beq_iff_eq.mp hx
        have hstep : dictFind (indexStep ind x) c = some ⟨x.marca, x.nome, none⟩ := by
          simp only [indexStep]
          rw [if_neg (by
            intro hbe
            exact hc (by rw [← hxe]; exact beq_iff_eq.mp (by simpa using hbe)))]
          split
          · split
            · rw [← hxe]
              exact dictFind_insert_self ind x.sku _
            · rw [dictFind_insert_ne _ _ _ _ (by rw [← hxe]; exact Ne.symm (strTail_ne_self (by rw [hxe]; exact hc))),
                ← hxe]
              exact dictFind_insert_self ind x.sku _
          · rw [← hxe]
            exact dictFind_insert_self ind x.sku _
        rw [foldl_preserve rest c (indexStep ind x) (lastWith_none hrest)
          (by rw [hstep]; rfl), hstep]
      · rw [if_neg hx] at h
        simp at h

theorem foldl_alias_first (c4 : String) (h4 : c4.length = 4) :
    ∀ (rows : List CatalogRow) (ind : SkuDict) (r : CatalogRow),
      (∀ x ∈ rows, x.sku ≠ c4) →
      dictFind ind c4 = none →
      firstWith ("0" ++ c4) rows = some r →
      dictFind (rows.foldl indexStep ind) c4
        = some ⟨r.marca, r.nome, some ("0" ++ c4)⟩ := by
  intro rows
  induction rows with
  | nil => intro ind r _ _ h; simp [firstWith] at h
  | cons x rest ih =>
    intro ind r hno hnone hfirst
    rw [List.foldl_cons]
    simp only [firstWith] at hfirst
    have hc4ne : c4 ≠ "0" ++ c4 := by
      intro he
      have := zero_append_length c4
      rw [← he] at this
      omega
    by_cases hx : x.sku == "0" ++ c4
    · rw [if_pos hx] at hfirst
      simp only [Option.some.injEq] at hfirst
      subst hfirst
      have hxe : x.sku = "0" ++ c4 := beq_iff_eq.mp hx
      have hstep : dictFind (indexStep ind x) c4
          = some ⟨x.marca, x.nome, some x.sku⟩ := by
        simp only [indexStep]
        rw [if_neg (by
          intro hbe
          exact zero_append_ne_empty c4 (by rw [← hxe]; exact beq_iff_eq.mp (by simpa using hbe)))]
        rw [if_pos (by
          rw [hxe]
          rw [Bool.and_eq_true]
          refine ⟨?_, strStartsWith0_zero_append c4⟩
          rw [beq_iff_eq, zero_append_length, h4])]
        have hs4 : strTail x.sku = c4 := by rw [hxe]; exact strTail_zero_append c4
        rw [if_neg (by
          rw [dictMem, hs4, dictFind_insert_ne ind x.sku c4 _ (by rw [hxe]; exact hc4ne), hnone]
          simp)]
        rw [hs4]
        exact dictFind_insert_self _ c4 _
      rw [foldl_preserve rest c4 (indexStep ind x)
        (fun y hy => hno y (List.mem_cons_of_mem _ hy)) (by rw [hstep]; rfl), hstep, hxe]
    · rw [if_neg hx] at hfirst
      have hxc : x.sku ≠ c4 := hno x (List.mem_cons_self _ _)
      have hstep : dictFind (indexStep ind x) c4 = none := by
        simp only [indexStep]
        split
        · exact hnone
        · split
          · split
            · rw [dictFind_insert_ne ind x.sku c4 _ (Ne.symm hxc)]
              exact hnone
            · rename_i hq hmem
              by_cases hs4 : strTail x.sku = c4
              · exfalso
                apply hx
                have hst : strStartsWith0 x.sku = true := by
                  have h2 := hq
                  simp only [Bool.and_eq_true] at h2
                  exact h2.2
                rw [beq_iff_eq]
                rw [startsWith0_recon hst, hs4]
              · rw [dictFind_insert_ne _ _ _ _ (fun he => hs4 he.symm),
                  dictFind_insert_ne ind x.sku c4 _ (Ne.symm hxc)]
                exact hnone
          · rw [dictFind_insert_ne ind x.sku c4 _ (Ne.symm hxc)]
            exact hnone
      exact ih (indexStep ind x) r (fun y hy => hno y (List.mem_cons_of_mem _ hy))
        hstep hfirst

/-! ### Claim theorems: normalization and the SKU index -/

/-- Helper: a list-level strip of leading/trailing whitespace commutes with the
digit filter, because stripped characters are never digits. -/
theorem filter_dropWhile_of_excl {p q : Char → Bool}
    (h : ∀ c, q c = true → p c = false) (l : List Char) :
    (l.dropWhile q).filter p = l.filter p := by
  induction l with
  | nil => rfl
  | cons c cs ih =>
    cases hq : q c with
    | true =>
      rw [List.dropWhile_cons_of_pos hq, ih, List.filter_cons_of_neg]
      simp [h c hq]
    | false => rw [List.dropWhile_cons_of_neg (by simp [hq])]

/-- Stripping surrounding whitespace does not change the digit subsequence. -/
theorem pyStrip_filter_digits (s : String) :
    (pyStrip s).toList.filter (fun c => c.isDigit)
      = s.toList.filter (fun c => c.isDigit) := by
  have hws : ∀ c : Char,
      (c == ' ' || c == '\t' || c == '\n' || c == '\r' || c == '\x0b' || c == '\x0c') = true →
      (fun c : Char => c.isDigit) c = false := by
    intro c hc
    simp only [Bool.or_eq_true, beq_iff_eq] at hc
    rcases hc with ((((h | h) | h) | h) | h) | h <;> rw [h] <;> rfl
  show ((((s.toList.dropWhile _).reverse).dropWhile _).reverse).filter _ = _
  rw [List.filter_reverse, filter_dropWhile_of_excl hws, List.filter_reverse,
    List.reverse_reverse, filter_dropWhile_of_excl hws]

/-- C7: Digit preservation.  `normalizar_sku` maps `"00123"` to `"00123"`
(leading zeros preserved), `" AB-12 "` to `"12"`, null to `""`, and in general
returns exactly the digit subsequence of the whitespace-trimmed string form of
the input, which coincides with the digit subsequence of the untrimmed form. -/
theorem claim_C7_digit_preservation :
    normalizar_sku (some "00123") = "00123"
    ∧ normalizar_sku (some " AB-12 ") = "12"
    ∧ normalizar_sku none = ""
    ∧ ∀ s : String,
        (normalizar_sku (some s)).toList
            = (pyStrip s).toList.filter (fun c => c.isDigit)
        ∧ (normalizar_sku (some s)).toList
            = s.toList.filter (fun c => c.isDigit) := by
  refine ⟨by decide, by decide, rfl, fun s => ⟨rfl, ?_⟩⟩
  show (pyStrip s).toList.filter (fun c => c.isDigit) = _
  exact pyStrip_filter_digits s

/-- C3: Resolver fallback order.  For every index and normalized sales code:
empty codes are NOT_FOUND; a key of the index is an EXACT_MATCH with the
indexed brand/name; the zero-prefix retry happens exactly for 4-character
codes missing from the index, yielding MATCHED_WITH_ZERO_PREFIX on success;
every other case — including any 5-digit code with no exact match, which is
never shortened — is NOT_FOUND. -/
theorem claim_C3_resolver_fallback (indice : SkuDict) (codigo : String) :
    (codigo = "" → buscar_sku codigo indice = (none, none, MOTIVO_NAO_ENCONTRADO))
    ∧ (∀ info : SkuInfo, codigo ≠ "" → dictFind indice codigo = some info →
        buscar_sku codigo indice = (some info.marca, some info.nome, MOTIVO_MATCH_EXATO))
    ∧ (∀ info : SkuInfo, codigo ≠ "" → dictFind indice codigo = none →
        codigo.length = 4 → dictFind indice ("0" ++ codigo) = some info →
        buscar_sku codigo indice = (some info.marca, some info.nome, MOTIVO_MATCH_COM_ZERO))
    ∧ ((buscar_sku codigo indice).2.2 = MOTIVO_MATCH_COM_ZERO ↔
        (codigo ≠ "" ∧ dictFind indice codigo = none ∧ codigo.length = 4
          ∧ (dictFind indice ("0" ++ codigo)).isSome = true))
    ∧ (codigo ≠ "" → dictFind indice codigo = none → codigo.length ≠ 4 →
        buscar_sku codigo indice = (none, none, MOTIVO_NAO_ENCONTRADO))
    ∧ (codigo ≠ "" → dictFind indice codigo = none → codigo.length = 4 →
        dictFind indice ("0" ++ codigo) = none →
        buscar_sku codigo indice = (none, none, MOTIVO_NAO_ENCONTRADO)) := by
  refine ⟨?_, ?_, ?_, ?_, ?_, ?_⟩
  · intro h
    simp [buscar_sku, h]
  · intro info hne hf
    simp [buscar_sku, hne, hf]
  · intro info hne hf h4 hf2
    simp [buscar_sku, hne, hf, h4, hf2]
  · by_cases hne : codigo = ""
    · simp [buscar_sku, hne, MOTIVO_NAO_ENCONTRADO, MOTIVO_MATCH_COM_ZERO]
    · cases hf : dictFind indice codigo with
      | some info =>
        simp [buscar_sku, hne, hf, MOTIVO_MATCH_EXATO, MOTIVO_MATCH_COM_ZERO]
      | none =>
        by_cases h4 : codigo.length = 4
        · cases hf2 : dictFind indice ("0" ++ codigo) with
          | some i2 =>
            simp [buscar_sku, hne, hf, h4, hf2]
          | none =>
            simp [buscar_sku, hne, hf, h4, hf2,
              MOTIVO_NAO_ENCONTRADO, MOTIVO_MATCH_COM_ZERO]
        · simp [buscar_sku, hne, hf, h4,
            MOTIVO_NAO_ENCONTRADO, MOTIVO_MATCH_COM_ZERO]
  · intro hne hf h4
    simp [buscar_sku, hne, hf, h4]
  · intro hne hf h4 hf2
    simp [buscar_sku, hne, hf, h4, hf2]

/-- Witness for C3: a 5-digit unmatched code is never shortened, and an empty
code is NOT_FOUND, over the index built from the single catalog code
`"01234"`. -/
theorem claim_C3_resolver_fallback_witness :
    ("11234" : String) ≠ ""
    ∧ dictFind (criar_indice_sku [⟨"01234", "BrandB", "NameB"⟩]) "11234" = none
    ∧ ("11234" : String).length ≠ 4
    ∧ buscar_sku "11234" (criar_indice_sku [⟨"01234", "BrandB", "NameB"⟩])
        = (none, none, MOTIVO_NAO_ENCONTRADO) :=
  ⟨by decide, by decide, by decide,
   (claim_C3_resolver_fallback (criar_indice_sku [⟨"01234", "BrandB", "NameB"⟩])
       "11234").2.2.2.2.1 (by decide) (by decide) (by decide)⟩

/-- C4: Real entries beat synthetic aliases.  If the catalog contains exactly
one row carrying a 4-digit code and also some row carrying `'0'` followed by
that code, then — in either order — the built index maps the 4-digit key to
the real row's brand/name (not the synthetic alias), and resolving the
4-digit sales code returns that brand with reason EXACT_MATCH. -/
theorem claim_C4_real_beats_alias (rows : List CatalogRow) (r4 : CatalogRow)
    (c4 : String) (hlen : c4.length = 4)
    (hmem : r4 ∈ rows) (hsku : r4.sku = c4)
    (huniq : ∀ x ∈ rows, x.sku = c4 → x = r4)
    (_h5 : ∃ r5 ∈ rows, r5.sku = "0" ++ c4) :
    dictFind (criar_indice_sku rows) c4 = some ⟨r4.marca, r4.nome, none⟩
    ∧ buscar_sku c4 (criar_indice_sku rows)
        = (some r4.marca, some r4.nome, MOTIVO_MATCH_EXATO) := by
  have hc : c4 ≠ "" := by
    intro he
    rw [he] at hlen
    simp [length_eq_toList_length] at hlen
  have hlast : lastWith c4 rows = some r4 := by
    cases hl : lastWith c4 rows with
    | none => exact absurd hsku (lastWith_none hl r4 hmem)
    | some r2 =>
      obtain ⟨hm2, hs2⟩ := lastWith_mem hl
      rw [huniq r2 hm2 hs2]
  have hfind := foldl_last_real c4 hc rows [] r4 hlast
  refine ⟨hfind, ?_⟩
  simp [buscar_sku, hc, criar_indice_sku] at hfind ⊢
  simp [hfind]

/-- Witness for C4 with the real 4-digit code appearing after the 5-digit
code (the order in which the synthetic alias is created first and must be
overwritten). -/
theorem claim_C4_real_beats_alias_witness :
    ("1234" : String).length = 4
    ∧ (⟨"1234", "Brand4", "Name4"⟩ : CatalogRow)
        ∈ [(⟨"01234", "BrandB", "NameB"⟩ : CatalogRow), ⟨"1234", "Brand4", "Name4"⟩]
    ∧ (⟨"1234", "Brand4", "Name4"⟩ : CatalogRow).sku = "1234"
    ∧ (∀ x ∈ [(⟨"01234", "BrandB", "NameB"⟩ : CatalogRow), ⟨"1234", "Brand4", "Name4"⟩],
        x.sku = "1234" → x = ⟨"1234", "Brand4", "Name4"⟩)
    ∧ (∃ r5 ∈ [(⟨"01234", "BrandB", "NameB"⟩ : CatalogRow), ⟨"1234", "Brand4", "Name4"⟩],
        r5.sku = "0" ++ "1234")
    ∧ (dictFind (criar_indice_sku
          [(⟨"01234", "BrandB", "NameB"⟩ : CatalogRow), ⟨"1234", "Brand4", "Name4"⟩]) "1234"
        = some ⟨"Brand4", "Name4", none⟩
      ∧ buscar_sku "1234" (criar_indice_sku
          [(⟨"01234", "BrandB", "NameB"⟩ : CatalogRow), ⟨"1234", "Brand4", "Name4"⟩])
        = (some "Brand4", some "Name4", MOTIVO_MATCH_EXATO)) :=
  ⟨by decide, by decide, by decide, by decide, by decide,
   claim_C4_real_beats_alias
     [(⟨"01234", "BrandB", "NameB"⟩ : CatalogRow), ⟨"1234", "Brand4", "Name4"⟩]
     ⟨"1234", "Brand4", "Name4"⟩ "1234" (by decide) (by decide) (by decide)
     (by decide) (by decide)⟩

/-- C10: Deterministic duplicate resolution.  Index building is a function of
the row sequence in which (a) for a real key — one carried by some catalog
row — the last-seen row's brand/name wins, stored without the alias marker;
and (b) a synthetic 4-digit alias key, for a code never carried by a real
row, keeps the brand/name of the first qualifying `'0'`-leading 5-digit row
and is never overwritten by a later synthetic alias. -/
theorem claim_C10_dup_resolution :
    (∀ (rows : List CatalogRow) (c : String) (r : CatalogRow), c ≠ "" →
        lastWith c rows = some r →
        dictFind (criar_indice_sku rows) c = some ⟨r.marca, r.nome, none⟩)
    ∧ (∀ (rows : List CatalogRow) (c4 : String) (r : CatalogRow), c4.length = 4 →
        (∀ x ∈ rows, x.sku ≠ c4) →
        firstWith ("0" ++ c4) rows = some r →
        dictFind (criar_indice_sku rows) c4
          = some ⟨r.marca, r.nome, some ("0" ++ c4)⟩) :=
  ⟨fun rows c r hc hl => foldl_last_real c hc rows [] r hl,
   fun rows c4 r h4 hno hf => foldl_alias_first c4 h4 rows [] r hno rfl hf⟩

/-- Witness for C10: duplicate real codes resolve to the last row, and
duplicate `'0'`-leading 5-digit codes keep the first alias. -/
theorem claim_C10_dup_resolution_witness :
    ("123" : String) ≠ ""
    ∧ lastWith "123" [(⟨"123", "BrandA", "NameA"⟩ : CatalogRow), ⟨"123", "BrandB", "NameB"⟩]
        = some ⟨"123", "BrandB", "NameB"⟩
    ∧ dictFind (criar_indice_sku
          [(⟨"123", "BrandA", "NameA"⟩ : CatalogRow), ⟨"123", "BrandB", "NameB"⟩]) "123"
        = some ⟨"BrandB", "NameB", none⟩
    ∧ ("1234" : String).length = 4
    ∧ (∀ x ∈ [(⟨"01234", "Brand1", "Name1"⟩ : CatalogRow), ⟨"01234", "Brand2", "Name2"⟩],
        x.sku ≠ "1234")
    ∧ firstWith ("0" ++ "1234")
          [(⟨"01234", "Brand1", "Name1"⟩ : CatalogRow), ⟨"01234", "Brand2", "Name2"⟩]
        = some ⟨"01234", "Brand1", "Name1"⟩
    ∧ dictFind (criar_indice_sku
          [(⟨"01234", "Brand1", "Name1"⟩ : CatalogRow), ⟨"01234", "Brand2", "Name2"⟩]) "1234"
        = some ⟨"Brand1", "Name1", some ("0" ++ "1234")⟩ :=
  ⟨by decide, by decide,
   claim_C10_dup_resolution.1
     [(⟨"123", "BrandA", "NameA"⟩ : CatalogRow), ⟨"123", "BrandB", "NameB"⟩]
     "123" ⟨"123", "BrandB", "NameB"⟩ (by decide) (by decide),
   by decide, by decide, by decide,
   claim_C10_dup_resolution.2
     [(⟨"01234", "Brand1", "Name1"⟩ : CatalogRow), ⟨"01234", "Brand2", "Name2"⟩]
     "1234" ⟨"01234", "Brand1", "Name1"⟩ (by decide) (by decide) (by decide)⟩

/-! ### Claim theorems: aggregation -/

/-- Counting a deduplicated, sentinel-filtered list is counting the finset of
values minus the sentinel. -/
theorem dedup_filter_length_eq_card (l : List String) (a : String) :
    ((l.dedup).filter (fun m => m != a)).length = (l.toFinset.erase a).card := by
  have hnodup : ((l.dedup).filter (fun m => m != a)).Nodup :=
    (List.nodup_dedup l).filter _
  have hset : ((l.dedup).filter (fun m => m != a)).toFinset = l.toFinset.erase a := by
    ext x
    simp only [List.mem_toFinset, List.mem_filter, List.mem_dedup, Finset.mem_erase,
      bne_iff_ne, ne_eq]
    tauto
  rw [← hset, List.toFinset_card_of_nodup hnodup]

/-- C5: Multi-brand classification.  Whenever the display attributes are
consistent per `(cycle, customerId)` (they are carried, not re-derived), each
emitted client metric's distinct-brand count equals the number of distinct
resolved brands of that customer's sale rows in that cycle excluding the
UNKNOWN sentinel, and the multi-brand flag holds exactly when that count is
at least 2. -/
theorem claim_C5_multibrand (rows : List VendaRow)
    (hcons : ∀ r ∈ filtrar_vendas rows, ∀ q ∈ filtrar_vendas rows,
        r.ciclo = q.ciclo → r.clienteId = q.clienteId →
        r.setor = q.setor ∧ r.codigoRev = q.codigoRev ∧ r.nomeRev = q.nomeRev)
    (m : ClientMetric)
    (hm : m ∈ calcular_metricas_cliente (filtrar_vendas rows)) :
    m.qtdeMarcasDistintas
      = ((((filtrar_vendas rows).filter
            (fun r => r.ciclo == m.ciclo && r.clienteId == m.clienteId)).map
          (fun r => r.marcaBD)).toFinset.erase MARCA_DESCONHECIDA).card
    ∧ (m.isMultimarcas = true ↔ 2 ≤ m.qtdeMarcasDistintas) := by
  simp only [calcular_metricas_cliente, List.mem_map] at hm
  obtain ⟨k, hk, hmk⟩ := hm
  subst hmk
  obtain ⟨r0, hr0, hr0k⟩ := List.mem_map.mp (List.mem_dedup.mp hk)
  subst hr0k
  have hfilter : (filtrar_vendas rows).filter
        (fun r => r.ciclo == r0.ciclo && r.clienteId == r0.clienteId)
      = (filtrar_vendas rows).filter (fun r => clientKey r == clientKey r0) := by
    apply List.filter_congr
    intro r hr
    have hiff : (r.ciclo = r0.ciclo ∧ r.clienteId = r0.clienteId)
        ↔ clientKey r = clientKey r0 := by
      constructor
      · intro h12
        obtain ⟨h1, h2⟩ := h12
        have hc := hcons r hr r0 hr0 h1 h2
        show (r.ciclo, r.clienteId, r.setor, r.codigoRev, r.nomeRev) = _
        rw [h1, h2, hc.1, hc.2.1, hc.2.2]
        rfl
      · intro h1
        have e1 : (clientKey r).1 = (clientKey r0).1 := by rw [h1]
        have e2 : (clientKey r).2.1 = (clientKey r0).2.1 := by rw [h1]
        exact ⟨e1, e2⟩
    rw [Bool.eq_iff_iff]
    simp only [Bool.and_eq_true, beq_iff_eq]
    exact hiff
  refine ⟨?_, ?_⟩
  · show (((((filtrar_vendas rows).filter (fun r => clientKey r == clientKey r0)).map
        (fun r => r.marcaBD)).dedup).filter (fun m => m != MARCA_DESCONHECIDA)).length
      = ((((filtrar_vendas rows).filter
            (fun r => r.ciclo == r0.ciclo && r.clienteId == r0.clienteId)).map
          (fun r => r.marcaBD)).toFinset.erase MARCA_DESCONHECIDA).card
    rw [hfilter]
    exact dedup_filter_length_eq_card _ _
  · have hgen : ∀ n : Nat, (decide (2 ≤ n) = true ↔ 2 ≤ n) := fun n => by simp
    exact hgen _

/-- Witness for C5 at the claim's own example: one customer, one cycle, sale
rows with brands X, Y, UNKNOWN, UNKNOWN — distinct known count 2, flag true.
(The single emitted metric is addressed lazily through `head!` so that the
unevaluated rational `ValorTotal` field never needs kernel normalization.) -/
theorem claim_C5_multibrand_witness :
    (∀ r ∈ filtrar_vendas
        [(⟨"S1", "N", "C9", "2024-01", "Venda", "X", "C9", 1, 10⟩ : VendaRow),
         ⟨"S1", "N", "C9", "2024-01", "Venda", "Y", "C9", 1, 10⟩,
         ⟨"S1", "N", "C9", "2024-01", "Venda", "DESCONHECIDA", "C9", 1, 10⟩,
         ⟨"S1", "N", "C9", "2024-01", "Venda", "DESCONHECIDA", "C9", 1, 10⟩],
      ∀ q ∈ filtrar_vendas
        [(⟨"S1", "N", "C9", "2024-01", "Venda", "X", "C9", 1, 10⟩ : VendaRow),
         ⟨"S1", "N", "C9", "2024-01", "Venda", "Y", "C9", 1, 10⟩,
         ⟨"S1", "N", "C9", "2024-01", "Venda", "DESCONHECIDA", "C9", 1, 10⟩,
         ⟨"S1", "N", "C9", "2024-01", "Venda", "DESCONHECIDA", "C9", 1, 10⟩],
      r.ciclo = q.ciclo → r.clienteId = q.clienteId →
        r.setor = q.setor ∧ r.codigoRev = q.codigoRev ∧ r.nomeRev = q.nomeRev)
    ∧ (calcular_metricas_cliente (filtrar_vendas
          [(⟨"S1", "N", "C9", "2024-01", "Venda", "X", "C9", 1, 10⟩ : VendaRow),
           ⟨"S1", "N", "C9", "2024-01", "Venda", "Y", "C9", 1, 10⟩,
           ⟨"S1", "N", "C9", "2024-01", "Venda", "DESCONHECIDA", "C9", 1, 10⟩,
           ⟨"S1", "N", "C9", "2024-01", "Venda", "DESCONHECIDA", "C9", 1, 10⟩])).head!
        ∈ calcular_metricas_cliente (filtrar_vendas
          [(⟨"S1", "N", "C9", "2024-01", "Venda", "X", "C9", 1, 10⟩ : VendaRow),
           ⟨"S1", "N", "C9", "2024-01", "Venda", "Y", "C9", 1, 10⟩,
           ⟨"S1", "N", "C9", "2024-01", "Venda", "DESCONHECIDA", "C9", 1, 10⟩,
           ⟨"S1", "N", "C9", "2024-01", "Venda", "DESCONHECIDA", "C9", 1, 10⟩])
    ∧ (calcular_metricas_cliente (filtrar_vendas
          [(⟨"S1", "N", "C9", "2024-01", "Venda", "X", "C9", 1, 10⟩ : VendaRow),
           ⟨"S1", "N", "C9", "2024-01", "Venda", "Y", "C9", 1, 10⟩,
           ⟨"S1", "N", "C9", "2024-01", "Venda", "DESCONHECIDA", "C9", 1, 10⟩,
           ⟨"S1", "N", "C9", "2024-01", "Venda", "DESCONHECIDA", "C9", 1, 10⟩])).head!.qtdeMarcasDistintas = 2
    ∧ (calcular_metricas_cliente (filtrar_vendas
          [(⟨"S1", "N", "C9", "2024-01", "Venda", "X", "C9", 1, 10⟩ : VendaRow),
           ⟨"S1", "N", "C9", "2024-01", "Venda", "Y", "C9", 1, 10⟩,
           ⟨"S1", "N", "C9", "2024-01", "Venda", "DESCONHECIDA", "C9", 1, 10⟩,
           ⟨"S1", "N", "C9", "2024-01", "Venda", "DESCONHECIDA", "C9", 1, 10⟩])).head!.isMultimarcas = true
    ∧ ((calcular_metricas_cliente (filtrar_vendas
          [(⟨"S1", "N", "C9", "2024-01", "Venda", "X", "C9", 1, 10⟩ : VendaRow),
           ⟨"S1", "N", "C9", "2024-01", "Venda", "Y", "C9", 1, 10⟩,
           ⟨"S1", "N", "C9", "2024-01", "Venda", "DESCONHECIDA", "C9", 1, 10⟩,
           ⟨"S1", "N", "C9", "2024-01", "Venda", "DESCONHECIDA", "C9", 1, 10⟩])).head!.qtdeMarcasDistintas
        = ((((filtrar_vendas
              [(⟨"S1", "N", "C9", "2024-01", "Venda", "X", "C9", 1, 10⟩ : VendaRow),
               ⟨"S1", "N", "C9", "2024-01", "Venda", "Y", "C9", 1, 10⟩,
               ⟨"S1", "N", "C9", "2024-01", "Venda", "DESCONHECIDA", "C9", 1, 10⟩,
               ⟨"S1", "N", "C9", "2024-01", "Venda", "DESCONHECIDA", "C9", 1, 10⟩]).filter
            (fun r => r.ciclo == (calcular_metricas_cliente (filtrar_vendas
                  [(⟨"S1", "N", "C9", "2024-01", "Venda", "X", "C9", 1, 10⟩ : VendaRow),
                   ⟨"S1", "N", "C9", "2024-01", "Venda", "Y", "C9", 1, 10⟩,
                   ⟨"S1", "N", "C9", "2024-01", "Venda", "DESCONHECIDA", "C9", 1, 10⟩,
                   ⟨"S1", "N", "C9", "2024-01", "Venda", "DESCONHECIDA", "C9", 1, 10⟩])).head!.ciclo
              && r.clienteId == (calcular_metricas_cliente (filtrar_vendas
                  [(⟨"S1", "N", "C9", "2024-01", "Venda", "X", "C9", 1, 10⟩ : VendaRow),
                   ⟨"S1", "N", "C9", "2024-01", "Venda", "Y", "C9", 1, 10⟩,
                   ⟨"S1", "N", "C9", "2024-01", "Venda", "DESCONHECIDA", "C9", 1, 10⟩,
                   ⟨"S1", "N", "C9", "2024-01", "Venda", "DESCONHECIDA", "C9", 1, 10⟩])).head!.clienteId)).map
          (fun r => r.marcaBD)).toFinset.erase MARCA_DESCONHECIDA).card
      ∧ ((calcular_metricas_cliente (filtrar_vendas
            [(⟨"S1", "N", "C9", "2024-01", "Venda", "X", "C9", 1, 10⟩ : VendaRow),
             ⟨"S1", "N", "C9", "2024-01", "Venda", "Y", "C9", 1, 10⟩,
             ⟨"S1", "N", "C9", "2024-01", "Venda", "DESCONHECIDA", "C9", 1, 10⟩,
             ⟨"S1", "N", "C9", "2024-01", "Venda", "DESCONHECIDA", "C9", 1, 10⟩])).head!.isMultimarcas = true
          ↔ 2 ≤ (calcular_metricas_cliente (filtrar_vendas
            [(⟨"S1", "N", "C9", "2024-01", "Venda", "X", "C9", 1, 10⟩ : VendaRow),
             ⟨"S1", "N", "C9", "2024-01", "Venda", "Y", "C9", 1, 10⟩,
             ⟨"S1", "N", "C9", "2024-01", "Venda", "DESCONHECIDA", "C9", 1, 10⟩,
             ⟨"S1", "N", "C9", "2024-01", "Venda", "DESCONHECIDA", "C9", 1, 10⟩])).head!.qtdeMarcasDistintas)) :=
  ⟨by decide, List.head!_mem_self (by decide), by decide, by decide,
   claim_C5_multibrand
     [(⟨"S1", "N", "C9", "2024-01", "Venda", "X", "C9", 1, 10⟩ : VendaRow),
      ⟨"S1", "N", "C9", "2024-01", "Venda", "Y", "C9", 1, 10⟩,
      ⟨"S1", "N", "C9", "2024-01", "Venda", "DESCONHECIDA", "C9", 1, 10⟩,
      ⟨"S1", "N", "C9", "2024-01", "Venda", "DESCONHECIDA", "C9", 1, 10⟩]
     (by decide) _ (List.head!_mem_self (by decide))⟩

/-- C8: Sector percentage never faults.  The sector/cycle aggregation of an
empty client table is empty; every emitted `(cycle, sector)` group counts at
least one distinct active customer (so the percentage never divides by
zero); and the overall multi-brand percentage is 0 when there are no active
customers. -/
theorem claim_C8_sector_safety :
    calcular_metricas_setor_ciclo [] = []
    ∧ (∀ (clientes : List ClientMetric) (m : SetorMetric),
        m ∈ calcular_metricas_setor_ciclo clientes → 1 ≤ m.clientesAtivos)
    ∧ (∀ (clientes : List ClientMetric) (vendas : List VendaRow),
        (calcular_metricas_gerais clientes vendas).total_ativos = 0 →
          (calcular_metricas_gerais clientes vendas).percent_multimarcas = 0) := by
  refine ⟨rfl, ?_, ?_⟩
  · intro clientes m hm
    simp only [calcular_metricas_setor_ciclo, List.mem_map] at hm
    obtain ⟨k, hk, hmk⟩ := hm
    subst hmk
    obtain ⟨c0, hc0, hc0k⟩ := List.mem_map.mp (List.mem_dedup.mp hk)
    have hmem : c0 ∈ clientes.filter (fun c => (c.ciclo, c.setor) == k) := by
      rw [List.mem_filter]
      exact ⟨hc0, beq_iff_eq.mpr hc0k⟩
    show 1 ≤ (((clientes.filter (fun c => (c.ciclo, c.setor) == k)).map
        (fun c => c.clienteId)).dedup).length
    have hin : c0.clienteId ∈ ((clientes.filter (fun c => (c.ciclo, c.setor) == k)).map
        (fun c => c.clienteId)).dedup := by
      rw [List.mem_dedup]
      exact List.mem_map_of_mem _ hmem
    have := List.length_pos.mpr (List.ne_nil_of_mem hin)
    omega
  · intro clientes vendas h
    simp only [calcular_metricas_gerais] at h ⊢
    rw [h]
    simp

/-- Witness for C8 at a one-client table (its emitted sector row addressed
lazily through `head!`) and at empty inputs. -/
theorem claim_C8_sector_safety_witness :
    (calcular_metricas_setor_ciclo
          [(⟨"2024-01", "C9", "S1", "C9", "N", "X, Y", 4, 40, 2, true⟩ : ClientMetric)]).head!
      ∈ calcular_metricas_setor_ciclo
          [(⟨"2024-01", "C9", "S1", "C9", "N", "X, Y", 4, 40, 2, true⟩ : ClientMetric)]
    ∧ (calcular_metricas_setor_ciclo
          [(⟨"2024-01", "C9", "S1", "C9", "N", "X, Y", 4, 40, 2, true⟩ : ClientMetric)]).head!.clientesAtivos = 1
    ∧ 1 ≤ (calcular_metricas_setor_ciclo
          [(⟨"2024-01", "C9", "S1", "C9", "N", "X, Y", 4, 40, 2, true⟩ : ClientMetric)]).head!.clientesAtivos
    ∧ (calcular_metricas_gerais [] []).total_ativos = 0
    ∧ (calcular_metricas_gerais [] []).percent_multimarcas = 0 :=
  ⟨List.head!_mem_self (by decide),
   by decide,
   claim_C8_sector_safety.2.1
     [(⟨"2024-01", "C9", "S1", "C9", "N", "X, Y", 4, 40, 2, true⟩ : ClientMetric)]
     _ (List.head!_mem_self (by decide)),
   by decide,
   claim_C8_sector_safety.2.2 [] [] (by decide)⟩

end Multimarks
